import Mathlib

/-!
Verification development for the `expense-tracker` CLI (src/index.js).

The program is a synchronous CRUD shell over two JSON documents: an array of
expense records and a month-to-amount budget mapping.  We embed the data model
and every command handler the specification talks about as pure Lean functions:
JavaScript numbers are idealised as exact rationals (`ℚ`), JS truthiness of a
number is `≠ 0`, of a string `≠ ""`, of an option `Option.isSome` combined with
the value test; file writes are modelled by returning the content that would be
written (`none` = nothing written).
-/

namespace ExpenseTracker

/-- JS `a || b` for an optional string: the stored/default-or pattern
`options.category || "Other"` (an absent value and the empty string are falsy). -/
def jsOr (o : Option String) (d : String) : String :=
  match o with
  | some s => if s = "" then d else s
  | none => d

/-- An expense record as persisted in the JSON array.  `category` is optional
because records read from disk may lack the key. -/
structure Expense where
  id : Int
  date : String
  description : String
  amount : ℚ
  category : Option String
deriving DecidableEq, Repr

instance : Inhabited Expense := ⟨⟨0, "", "", 0, none⟩⟩

/-- Truthiness check performed by `writeExpenses` on every record:
`expense.id && expense.date && expense.description && expense.amount`
(a zero id, empty date, empty description or zero amount is falsy). -/
def validExpense (e : Expense) : Prop :=
  e.id ≠ 0 ∧ e.date ≠ "" ∧ e.description ≠ "" ∧ e.amount ≠ 0

instance (e : Expense) : Decidable (validExpense e) := by
  unfold validExpense; infer_instance

/-- Digits of the fractional part of a rational in `[0, 1)`, produced as JS
renders the decimal expansion of a number; the fuel bounds recursion (every JS
float has a terminating decimal expansion, so the fuel is never the limit on
values realisable in the source program). -/
def fracDigits : Nat → ℚ → String
  | 0, _ => ""
  | fuel + 1, x =>
    if x = 0 then "" else
      let y := x * 10
      let d := (Rat.floor y).toNat
      Nat.repr d ++ fracDigits fuel (y - (d : ℚ))

/-- JS default number-to-string rendering used by template literals and
`JSON.stringify`: no decimal point for integers, otherwise the exact decimal
expansion with no trailing zeros. -/
def numToString (x : ℚ) : String :=
  let sgn := if x < 0 then "-" else ""
  let a := |x|
  let ip := (Rat.floor a).toNat
  let fr := a - (ip : ℚ)
  sgn ++ Nat.repr ip ++ (if fr = 0 then "" else "." ++ fracDigits 100 fr)

/-- Two-digit zero padding for the cents part of `toFixed(2)`. -/
def pad2 (k : Nat) : String :=
  if k < 10 then "0" ++ Nat.repr k else Nat.repr k

/-- JS `Number.prototype.toFixed(2)`: round the magnitude to the nearest
hundredth (ties away from zero) and print exactly two decimal digits. -/
def toFixed2 (x : ℚ) : String :=
  let sgn := if x < 0 then "-" else ""
  let n := (Rat.floor (|x| * 100 + 1 / 2)).toNat
  sgn ++ Nat.repr (n / 100) ++ "." ++ pad2 (n % 100)

/-- JS `String.prototype.padEnd(n)` with spaces. -/
def padEnd (n : Nat) (s : String) : String :=
  s ++ String.mk (List.replicate (n - s.length) ' ')

/-- Apostrophe character, used in the budget warning line. -/
def apos : String := String.singleton (Char.ofNat 39)

/-! ### Record store -/

/-- The id generator (src/index.js line 47-49):
`expenses.length > 0 ? Math.max(...expenses.map(e => e.id)) + 1 : 1`.
`Math.max` over a non-empty argument list is the fold of binary max. -/
def generateId (es : List Expense) : Int :=
  match es.map (fun e => e.id) with
  | [] => 1
  | x :: xs => xs.foldl max x + 1

/-- Hex digit (lowercase) for JSON `\u00XX` escapes. -/
def hexDigit (n : Nat) : String :=
  if n < 10 then Nat.repr n else String.singleton (Char.ofNat (97 + n - 10))

/-- Escaping `JSON.stringify` applies inside string values. -/
def escChar (c : Char) : String :=
  if c = '"' then "\\\""
  else if c = '\\' then "\\\\"
  else if c = '\n' then "\\n"
  else if c = '\t' then "\\t"
  else if c = '\r' then "\\r"
  else if c.toNat = 8 then "\\b"
  else if c.toNat = 12 then "\\f"
  else if c.toNat < 32 then "\\u00" ++ hexDigit (c.toNat / 16) ++ hexDigit (c.toNat % 16)
  else String.singleton c

/-- A JSON string literal for `s`. -/
def quoteJson (s : String) : String :=
  "\"" ++ String.join (s.toList.map escChar) ++ "\""

/-- One record as `JSON.stringify(expenses, null, 2)` lays it out inside the
array: object at indent 2, fields at indent 4, insertion order
id, date, description, amount, category; an absent category key is omitted. -/
def serializeExpense (e : Expense) : String :=
  "  \x7b\n    \"id\": " ++ toString e.id ++
  ",\n    \"date\": " ++ quoteJson e.date ++
  ",\n    \"description\": " ++ quoteJson e.description ++
  ",\n    \"amount\": " ++ numToString e.amount ++
  (match e.category with
   | some c => ",\n    \"category\": " ++ quoteJson c
   | none => "") ++
  "\n  \x7d"

/-- The full document `JSON.stringify(expenses, null, 2)` (2-space indent). -/
def serializeExpenses (es : List Expense) : String :=
  match es with
  | [] => "[]"
  | _ => "[\n" ++ String.intercalate ",\n" (es.map serializeExpense) ++ "\n]"

/-- The store writer (src/index.js line 37-45): every record must pass the
truthiness validation, otherwise the call throws `Invalid expense data` before
anything is written; on success the serialized document is written whole. -/
def writeExpenses (es : List Expense) : Except String String :=
  if ∀ e ∈ es, validExpense e then Except.ok (serializeExpenses es)
  else Except.error "Invalid expense data"

/-- Content of the backing document after a `writeExpenses` call that started
from document `doc`: a thrown validation error leaves the document untouched. -/
def writeExpensesDoc (doc : String) (es : List Expense) : String :=
  match writeExpenses es with
  | Except.ok s => s
  | Except.error _ => doc

/-- The declared amount validator (src/index.js line 25-30): rejects
non-positive amounts.  It is not called from the add/update paths. -/
def validateAmount (a : ℚ) : Except String ℚ :=
  if a ≤ 0 then Except.error "Amount must be a positive number" else Except.ok a

/-! ### Command handlers -/

/-- Result of one mutating command: the document content written (if any
write succeeded), the console output, and a thrown error message (if any). -/
structure CmdResult where
  written : Option String
  output : List String
  error : Option String
deriving DecidableEq, Repr

/-- The record the add handler constructs (src/index.js line 93-99). -/
def mkExpense (es : List Expense) (today desc : String) (amount : ℚ)
    (cat : Option String) : Expense :=
  { id := generateId es, date := today, description := desc,
    amount := amount, category := some (jsOr cat "Other") }

/-- The add handler (src/index.js line 91-103): build the record, append it,
persist through `writeExpenses`, report the new id. -/
def addAction (es : List Expense) (today desc : String) (amount : ℚ)
    (cat : Option String) : CmdResult :=
  let newE := mkExpense es today desc amount cat
  let es2 := es ++ [newE]
  match writeExpenses es2 with
  | Except.ok doc =>
    { written := some doc,
      output := ["# Expense added successfully (ID: " ++ toString newE.id ++ ")"],
      error := none }
  | Except.error msg => { written := none, output := [], error := some msg }

/-- Field overwrite performed by the update handler (src/index.js line
153-155): a supplied-but-falsy value (empty string, zero amount) is skipped
exactly like an omitted one. -/
def applyUpdate (e : Expense) (d : Option String) (a : Option ℚ)
    (c : Option String) : Expense :=
  { id := e.id, date := e.date,
    description := match d with
      | some s => if s = "" then e.description else s
      | none => e.description,
    amount := match a with
      | some x => if x = 0 then e.amount else x
      | none => e.amount,
    category := match c with
      | some s => if s = "" then e.category else some s
      | none => e.category }

/-- The record list the update handler passes to `writeExpenses`:
unchanged when no record matches the id. -/
def updateList (es : List Expense) (i : Int) (d : Option String) (a : Option ℚ)
    (c : Option String) : List Expense :=
  match es.findIdx? (fun e => e.id == i) with
  | none => es
  | some idx => es.set idx (applyUpdate ((es[idx]?).getD default) d a c)

/-- The update handler (src/index.js line 144-159). -/
def updateAction (es : List Expense) (i : Int) (d : Option String) (a : Option ℚ)
    (c : Option String) : CmdResult :=
  match es.findIdx? (fun e => e.id == i) with
  | none =>
    { written := none,
      output := ["# Expense with ID " ++ toString i ++ " not found"],
      error := none }
  | some _ =>
    match writeExpenses (updateList es i d a c) with
    | Except.ok doc =>
      { written := some doc, output := ["# Expense updated successfully"],
        error := none }
    | Except.error msg => { written := none, output := [], error := some msg }

/-- The delete handler (src/index.js line 164-174): splice out the matching
record and persist; report not-found otherwise. -/
def deleteAction (es : List Expense) (i : Int) : CmdResult :=
  match es.findIdx? (fun e => e.id == i) with
  | none =>
    { written := none,
      output := ["# Expense with ID " ++ toString i ++ " not found"],
      error := none }
  | some idx =>
    match writeExpenses (es.eraseIdx idx) with
    | Except.ok doc =>
      { written := some doc, output := ["# Expense deleted successfully"],
        error := none }
    | Except.error msg => { written := none, output := [], error := some msg }

/-! ### Budget store and the set-budget handler -/

/-- JS `BUDGETS[m] = a` on an object modelled as an association list: an
existing key keeps its place, a new key is appended. -/
def setKey (bs : List (Int × ℚ)) (m : Int) (a : ℚ) : List (Int × ℚ) :=
  match bs with
  | [] => [(m, a)]
  | (k, v) :: rest => if k == m then (m, a) :: rest else (k, v) :: setKey rest m a

/-- English month name the code gets from
`new Date(2024, month - 1).toLocaleString(default, month: long)`;
the Date constructor rolls an out-of-range index over into adjacent years. -/
def monthNames : List String :=
  ["January", "February", "March", "April", "May", "June", "July",
   "August", "September", "October", "November", "December"]

/-- Month name with JS Date rollover for any integer month argument. -/
def monthName (m : Int) : String :=
  monthNames.getD ((m - 1).emod 12).toNat ""

/-- The set-budget handler (src/index.js line 180-186): read the mapping,
overwrite the one key, persist the full mapping, confirm. -/
def setBudgetAction (bs : List (Int × ℚ)) (m : Int) (a : ℚ) :
    List (Int × ℚ) × List String :=
  let bs2 := setKey bs m a
  (bs2, ["# Budget for " ++ monthName m ++ " set to $" ++ numToString a])

/-! ### Summary handler -/

/-- JS `parseInt` on a string: skip leading whitespace, optional sign,
leading decimal digits; no digits gives NaN, modelled as `none`. -/
def parseIntOpt (s : String) : Option Int :=
  let t := s.toList.dropWhile (fun c => c.isWhitespace)
  let signRest : Int × List Char :=
    match t with
    | '-' :: r => (-1, r)
    | '+' :: r => (1, r)
    | r => (1, r)
  let ds := signRest.2.takeWhile (fun c => c.isDigit)
  if ds.isEmpty then none
  else some (signRest.1 * (ds.foldl (fun n c => n * 10 + (c.toNat - 48)) 0 : Nat))

/-- JS `String.prototype.split("-")` on the character list: the list of
maximal hyphen-free segments (an empty string yields one empty segment). -/
def splitDash : List Char → List Char → List (List Char)
  | [], acc => [acc.reverse]
  | c :: rest, acc =>
    if c = '-' then acc.reverse :: splitDash rest []
    else splitDash rest (c :: acc)

/-- Month component the summary filter extracts:
`parseInt(e.date.split("-")[1])`; `none` when the date has no second
hyphen-separated component or it starts with no digit. -/
def monthOf (date : String) : Option Int :=
  match (splitDash date.toList [])[1]? with
  | none => none
  | some s => parseIntOpt (String.mk s)

/-- Effective category of a record: `expense.category || "Other"`. -/
def effCategory (e : Expense) : String :=
  jsOr e.category "Other"

/-- Category filter of list/summary: case-insensitive match against the
effective category, applied only when the option is truthy. -/
def categoryFiltered (cat : Option String) (es : List Expense) : List Expense :=
  match cat with
  | none => es
  | some c =>
    if c = "" then es
    else es.filter (fun e => (effCategory e).toLower == c.toLower)

/-- Month filter of summary: records whose parsed month equals `m`. -/
def monthFiltered (m : Int) (es : List Expense) : List Expense :=
  es.filter (fun e => monthOf e.date == some m)

/-- Total of a record list: `reduce((sum, e) => sum + e.amount, 0)`. -/
def sumAmounts (es : List Expense) : ℚ :=
  es.foldl (fun s e => s + e.amount) 0

/-- Add an amount to a category bucket, keeping first-occurrence order as a
JS object with word keys does. -/
def bumpCategory (acc : List (String × ℚ)) (c : String) (a : ℚ) :
    List (String × ℚ) :=
  match acc with
  | [] => [(c, a)]
  | (k, v) :: rest =>
    if k == c then (k, v + a) :: rest else (k, v) :: bumpCategory rest c a

/-- The by-category accumulation of summary (src/index.js line 228-232). -/
def groupByCategory (es : List Expense) : List (String × ℚ) :=
  es.foldl (fun acc e => bumpCategory acc (effCategory e) e.amount) []

/-- Lines of the by-category block, marker line included; each subtotal is
rendered with `toFixed(2)` after a 12-wide category column. -/
def byCategoryLines (es : List Expense) : List String :=
  "\n# Expenses by category:" ::
    (groupByCategory es).map
      (fun p => "# " ++ padEnd 12 p.1 ++ ": $" ++ toFixed2 p.2)

/-- Budget comparison lines of the month branch (src/index.js line 213-221):
nothing when the month has no truthy budget entry; a warning when the total
reached the budget, otherwise the remaining budget, both with `toFixed(2)`. -/
def budgetLines (bs : List (Int × ℚ)) (m : Int) (total : ℚ) : List String :=
  match List.lookup m bs with
  | none => []
  | some b =>
    if b = 0 then []
    else if total ≥ b then
      ["# WARNING: You" ++ apos ++ "ve exceeded your " ++ monthName m ++
       " budget of $" ++ numToString b ++ " by $" ++ toFixed2 (total - b)]
    else
      ["# Remaining budget for " ++ monthName m ++ ": $" ++
       toFixed2 (b - total)]

/-- Main lines of summary together with the record list the by-category block
will see: the month branch refilters the FULL list by month (discarding any
category filter) and reassigns `filtered`; a falsy month option (absent or 0)
takes the overall-total branch on the category-filtered list. -/
def summaryMain (es : List Expense) (bs : List (Int × ℚ)) (cat : Option String)
    (month : Option Int) : List String × List Expense :=
  let filtered := categoryFiltered cat es
  match month with
  | some m =>
    if m = 0 then
      (["# Total expenses: $" ++ numToString (sumAmounts filtered)], filtered)
    else
      let mf := monthFiltered m es
      let total := sumAmounts mf
      (("# Total expenses for " ++ monthName m ++ ": $" ++ numToString total) ::
        budgetLines bs m total, mf)
  | none =>
    (["# Total expenses: $" ++ numToString (sumAmounts filtered)], filtered)

/-- The summary handler (src/index.js line 195-238): main lines, then the
by-category block when the flag is set. -/
def summaryAction (es : List Expense) (bs : List (Int × ℚ)) (cat : Option String)
    (month : Option Int) (byCat : Bool) : List String :=
  (summaryMain es bs cat month).1 ++
    (if byCat then byCategoryLines (summaryMain es bs cat month).2 else [])

/-! ### Export handler -/

/-- One CSV row (src/index.js line 252): description wrapped in double quotes
with no further escaping, category defaulted to Other, amount rendered raw. -/
def csvRow (e : Expense) : String :=
  toString e.id ++ "," ++ e.date ++ "," ++ jsOr e.category "Other" ++
  ",\"" ++ e.description ++ "\"," ++ numToString e.amount ++ "\n"

/-- The export handler document (src/index.js line 243-258): header row then
one row per expense in store order. -/
def exportCsv (es : List Expense) : String :=
  "ID,Date,Category,Description,Amount\n" ++ String.join (es.map csvRow)

end ExpenseTracker

namespace ExpenseTracker

/-! ### Helper lemmas -/

theorem le_foldl_max_init (xs : List Int) (x : Int) : x ≤ xs.foldl max x := by
  induction xs generalizing x with
  | nil => exact le_refl x
  | cons h t ih => exact le_trans (le_max_left x h) (ih (max x h))

theorem le_foldl_max_of_mem (xs : List Int) (x y : Int) (hy : y ∈ xs) :
    y ≤ xs.foldl max x := by
  induction xs generalizing x with
  | nil => cases hy
  | cons h t ih =>
    rcases List.mem_cons.mp hy with rfl | hmem
    · exact le_trans (le_max_right x y) (le_foldl_max_init t (max x y))
    · exact ih (max x h) hmem

theorem generateId_pos (es : List Expense) (hid : ∀ e ∈ es, 0 < e.id) :
    0 < generateId es := by
  cases es with
  | nil => exact Int.zero_lt_one
  | cons e rest =>
    have h1 : e.id ≤ (rest.map (fun e => e.id)).foldl max e.id :=
      le_foldl_max_init _ _
    have h2 : 0 < e.id := hid e (List.mem_cons_self e rest)
    simp only [generateId, List.map_cons]
    omega

/-! ### Claim theorems -/

/-- C1: the id the add handler assigns to the new expense is the one
`generateId` computes: 1 for an empty store and max existing id + 1
otherwise; in particular it exceeds every existing id. -/
theorem generateId_assigns_max_plus_one (es : List Expense) (today desc : String)
    (a : ℚ) (c : Option String) :
    (mkExpense es today desc a c).id = generateId es
    ∧ (es = [] → generateId es = 1)
    ∧ (∀ M, (es.map (fun e => e.id)).max? = some M → generateId es = M + 1)
    ∧ ∀ e ∈ es, e.id < generateId es := by
  refine ⟨rfl, ?_, ?_, ?_⟩
  · rintro rfl; rfl
  · intro M hM
    cases es with
    | nil => simp at hM
    | cons e rest =>
      rw [List.map_cons, List.max?_cons', Option.some_inj] at hM
      simp only [generateId, List.map_cons]
      omega
  · intro e he
    cases es with
    | nil => cases he
    | cons e0 rest =>
      simp only [generateId, List.map_cons]
      rcases List.mem_cons.mp he with rfl | hmem
      · have := le_foldl_max_init (rest.map (fun e => e.id)) e.id
        omega
      · have : e.id ∈ rest.map (fun e => e.id) := List.mem_map_of_mem _ hmem
        have := le_foldl_max_of_mem (rest.map (fun e => e.id)) e0.id e.id this
        omega

/-- C1 witness: a store with ids 3 and 7 gets 8 as the next id. -/
theorem generateId_assigns_max_plus_one_witness :
    (mkExpense [⟨3, "2024-01-01", "a", 1, none⟩, ⟨7, "2024-01-02", "b", 2, none⟩]
      "2024-01-03" "c" 4 none).id
      = generateId [⟨3, "2024-01-01", "a", 1, none⟩, ⟨7, "2024-01-02", "b", 2, none⟩]
    ∧ generateId [⟨3, "2024-01-01", "a", 1, none⟩, ⟨7, "2024-01-02", "b", 2, none⟩]
      = 7 + 1
    ∧ (7 : Int) < generateId [⟨3, "2024-01-01", "a", 1, none⟩,
        ⟨7, "2024-01-02", "b", 2, none⟩] := by
  have h := generateId_assigns_max_plus_one
    [⟨3, "2024-01-01", "a", 1, none⟩, ⟨7, "2024-01-02", "b", 2, none⟩]
    "2024-01-03" "c" 4 none
  refine ⟨h.1, h.2.2.1 7 (by decide), ?_⟩
  exact h.2.2.2 ⟨7, "2024-01-02", "b", 2, none⟩ (by simp)

/-- C2: a record with a falsy id, date, description or amount makes
`writeExpenses` fail with the validation error and leaves the backing
document untouched; when every record passes, the full list is written as
the 2-space-indented serialization. -/
theorem writeExpenses_validation (es : List Expense) (doc : String) :
    ((∃ e ∈ es, e.id = 0 ∨ e.date = "" ∨ e.description = "" ∨ e.amount = 0) →
      writeExpenses es = Except.error "Invalid expense data"
      ∧ writeExpensesDoc doc es = doc)
    ∧ ((∀ e ∈ es, e.id ≠ 0 ∧ e.date ≠ "" ∧ e.description ≠ "" ∧ e.amount ≠ 0) →
      writeExpenses es = Except.ok (serializeExpenses es)
      ∧ writeExpensesDoc doc es = serializeExpenses es) := by
  constructor
  · rintro ⟨e, he, hbad⟩
    have hnot : ¬ ∀ e ∈ es, validExpense e := by
      intro hall
      have hv := hall e he
      rcases hv with ⟨h1, h2, h3, h4⟩
      rcases hbad with h | h | h | h <;> [exact h1 h; exact h2 h; exact h3 h; exact h4 h]
    have hw : writeExpenses es = Except.error "Invalid expense data" := by
      unfold writeExpenses; rw [if_neg hnot]
    refine ⟨hw, ?_⟩
    unfold writeExpensesDoc; rw [hw]
  · intro hall
    have hok : ∀ e ∈ es, validExpense e := fun e he => hall e he
    have hw : writeExpenses es = Except.ok (serializeExpenses es) := by
      unfold writeExpenses; rw [if_pos hok]
    refine ⟨hw, ?_⟩
    unfold writeExpensesDoc; rw [hw]

/-- C2 witness: a zero amount aborts the write and the document keeps its
old content; a fully valid record is written whole. -/
theorem writeExpenses_validation_witness :
    writeExpenses [⟨1, "2024-01-01", "a", 0, none⟩]
      = Except.error "Invalid expense data"
    ∧ writeExpensesDoc "old" [⟨1, "2024-01-01", "a", 0, none⟩] = "old"
    ∧ writeExpenses [⟨1, "2024-01-01", "a", 2, none⟩]
      = Except.ok (serializeExpenses [⟨1, "2024-01-01", "a", 2, none⟩]) := by
  have h1 := writeExpenses_validation [⟨1, "2024-01-01", "a", 0, none⟩] "old"
  have h2 := writeExpenses_validation [⟨1, "2024-01-01", "a", 2, none⟩] "old"
  have hbad : ∃ e ∈ [(⟨1, "2024-01-01", "a", 0, none⟩ : Expense)],
      e.id = 0 ∨ e.date = "" ∨ e.description = "" ∨ e.amount = 0 :=
    ⟨⟨1, "2024-01-01", "a", 0, none⟩, by simp, by simp⟩
  exact ⟨(h1.1 hbad).1, (h1.1 hbad).2, (h2.2 (by decide)).1⟩

/-- C6: deleting an id no record carries leaves the store unwritten, prints
the not-found message, and raises no error. -/
theorem delete_unknown_id_no_change (es : List Expense) (i : Int)
    (h : ∀ e ∈ es, e.id ≠ i) :
    deleteAction es i =
      { written := none,
        output := ["# Expense with ID " ++ toString i ++ " not found"],
        error := none } := by
  have hf : es.findIdx? (fun e => e.id == i) = none := by
    rw [List.findIdx?_eq_none_iff]
    intro e he
    simpa using h e he
  simp [deleteAction, hf]

/-- C6 witness: deleting id 999 from a store holding only id 1. -/
theorem delete_unknown_id_no_change_witness :
    deleteAction [⟨1, "2024-08-01", "a", 5, none⟩] 999 =
      { written := none,
        output := ["# Expense with ID 999 not found"],
        error := none } := by
  have h := delete_unknown_id_no_change [⟨1, "2024-08-01", "a", 5, none⟩] 999
    (by intro e he; simp at he; simp [he])
  simpa using h

theorem lookup_setKey_ne (bs : List (ℤ × ℚ)) (m : ℤ) (a : ℚ) (k : ℤ)
    (h : k ≠ m) : List.lookup k (setKey bs m a) = List.lookup k bs := by
  induction bs with
  | nil =>
    have hkm : (k == m) = false := by simpa using h
    simp [setKey, List.lookup_cons, hkm]
  | cons p rest ih =>
    obtain ⟨k0, v0⟩ := p
    by_cases hk : k0 = m
    · subst hk
      have hkk : (k == k0) = false := by simpa using h
      simp [setKey, List.lookup_cons, hkk]
    · have hk0 : (k0 == m) = false := by simpa using hk
      by_cases hkk : k = k0
      · subst hkk
        simp [setKey, hk0, List.lookup_cons]
      · have hkkf : (k == k0) = false := by simpa using hkk
        simp [setKey, hk0, List.lookup_cons, hkkf, ih]

theorem lookup_setKey_self (bs : List (ℤ × ℚ)) (m : ℤ) (a : ℚ) :
    List.lookup m (setKey bs m a) = some a := by
  induction bs with
  | nil => simp [setKey]
  | cons p rest ih =>
    obtain ⟨k0, v0⟩ := p
    by_cases hk : k0 = m
    · subst hk; simp [setKey]
    · have h1 : (k0 == m) = false := by simpa using hk
      have h2 : (m == k0) = false := by simpa using (Ne.symm hk)
      simp [setKey, h1, List.lookup_cons, h2, ih]

/-- C10: set-budget overwrites only the entry of the given month in the
persisted mapping; every other month keeps its prior value. -/
theorem setBudget_preserves_other_months (bs : List (Int × ℚ)) (m : Int) (a : ℚ)
    (k : Int) (h : k ≠ m) :
    List.lookup k (setBudgetAction bs m a).1 = List.lookup k bs
    ∧ List.lookup m (setBudgetAction bs m a).1 = some a :=
  ⟨lookup_setKey_ne bs m a k h, lookup_setKey_self bs m a⟩

/-- C10 witness: setting month 8 leaves the month 9 entry intact. -/
theorem setBudget_preserves_other_months_witness :
    List.lookup 9 (setBudgetAction [((9 : Int), (120 : ℚ))] 8 500).1
      = List.lookup 9 [((9 : Int), (120 : ℚ))]
    ∧ List.lookup 8 (setBudgetAction [((9 : Int), (120 : ℚ))] 8 500).1
      = some 500 :=
  setBudget_preserves_other_months [((9 : Int), (120 : ℚ))] 8 500 9 (by decide)

end ExpenseTracker

namespace ExpenseTracker

/-- C3: when the store holds a record with the given id, the update handler
overwrites only the supplied fields of that record; its omitted fields and
every other record keep their prior values (id and date are never touched). -/
theorem update_changes_only_supplied (es : List Expense) (i : Int)
    (d : Option String) (a : Option ℚ) (c : Option String) (idx : Nat)
    (old : Expense) (hfind : es.findIdx? (fun e => e.id == i) = some idx)
    (hold : es[idx]? = some old) :
    (updateList es i d a c)[idx]? = some (applyUpdate old d a c)
    ∧ (d = none → (applyUpdate old d a c).description = old.description)
    ∧ (a = none → (applyUpdate old d a c).amount = old.amount)
    ∧ (c = none → (applyUpdate old d a c).category = old.category)
    ∧ (applyUpdate old d a c).id = old.id
    ∧ (applyUpdate old d a c).date = old.date
    ∧ ∀ j, j ≠ idx → (updateList es i d a c)[j]? = es[j]? := by
  have hlt : idx < es.length := (List.getElem?_eq_some.mp hold).1
  have hlist : updateList es i d a c = es.set idx (applyUpdate old d a c) := by
    simp only [updateList, hfind, hold, Option.getD_some]
  refine ⟨?_, ?_, ?_, ?_, rfl, rfl, ?_⟩
  · rw [hlist]
    exact List.getElem?_set_self (by simpa using hlt)
  · rintro rfl; rfl
  · rintro rfl; rfl
  · rintro rfl; rfl
  · intro j hj
    rw [hlist]
    exact List.getElem?_set_ne (Ne.symm hj)

/-- C3 witness: updating only the amount of record 2 keeps its description,
category, id and date, and leaves record 1 untouched. -/
theorem update_changes_only_supplied_witness :
    (updateList
        [⟨1, "2024-08-01", "a", 5, some "Food"⟩, ⟨2, "2024-08-02", "b", 7, none⟩]
        2 none (some 9) none)[1]?
      = some (applyUpdate ⟨2, "2024-08-02", "b", 7, none⟩ none (some 9) none)
    ∧ (applyUpdate ⟨2, "2024-08-02", "b", 7, none⟩ none (some 9) none).description = "b"
    ∧ (applyUpdate ⟨2, "2024-08-02", "b", 7, none⟩ none (some 9) none).category = none
    ∧ (updateList
        [⟨1, "2024-08-01", "a", 5, some "Food"⟩, ⟨2, "2024-08-02", "b", 7, none⟩]
        2 none (some 9) none)[0]?
      = some ⟨1, "2024-08-01", "a", 5, some "Food"⟩ := by
  have h := update_changes_only_supplied
    [⟨1, "2024-08-01", "a", 5, some "Food"⟩, ⟨2, "2024-08-02", "b", 7, none⟩]
    2 none (some 9) none 1 ⟨2, "2024-08-02", "b", 7, none⟩
    (by decide) (by decide)
  refine ⟨h.1, ?_, ?_, ?_⟩
  · rw [h.2.1 rfl]
  · rw [h.2.2.2.1 rfl]
  · rw [h.2.2.2.2.2.2 0 (by decide)]
    rfl

/-- C9: on the add path no positivity check runs: for a negative parsed
amount the truthiness validation of `writeExpenses` passes (any nonzero
amount is truthy) and the expense is persisted with that amount unchanged,
even though the unused `validateAmount` would have rejected it. -/
theorem add_negative_amount_persisted (es : List Expense) (t d : String)
    (a : ℚ) (c : Option String) (hval : ∀ e ∈ es, validExpense e)
    (hid : ∀ e ∈ es, 0 < e.id) (ht : t ≠ "") (hd : d ≠ "") (ha : a < 0) :
    validateAmount a = Except.error "Amount must be a positive number"
    ∧ (mkExpense es t d a c).amount = a
    ∧ addAction es t d a c =
      { written := some (serializeExpenses (es ++ [mkExpense es t d a c])),
        output := ["# Expense added successfully (ID: " ++
          toString (generateId es) ++ ")"],
        error := none } := by
  have hnew : validExpense (mkExpense es t d a c) := by
    refine ⟨?_, ht, hd, ne_of_lt ha⟩
    have := generateId_pos es hid
    simp only [mkExpense]
    omega
  have hallw : ∀ e ∈ es ++ [mkExpense es t d a c], validExpense e := by
    intro e he
    rcases List.mem_append.mp he with h | h
    · exact hval e h
    · rcases List.mem_singleton.mp h with rfl
      exact hnew
  have hw : writeExpenses (es ++ [mkExpense es t d a c]) =
      Except.ok (serializeExpenses (es ++ [mkExpense es t d a c])) := by
    unfold writeExpenses; rw [if_pos hallw]
  refine ⟨?_, rfl, ?_⟩
  · unfold validateAmount; rw [if_pos (le_of_lt ha)]
  · simp only [addAction]
    rw [hw]
    rfl

/-- C9 witness: adding an expense of amount -5 to an empty store persists it
with amount -5 while `validateAmount` would have rejected that amount. -/
theorem add_negative_amount_persisted_witness :
    validateAmount (-5) = Except.error "Amount must be a positive number"
    ∧ (mkExpense [] "2024-08-01" "x" (-5) none).amount = -5
    ∧ addAction [] "2024-08-01" "x" (-5) none =
      { written := some (serializeExpenses [mkExpense [] "2024-08-01" "x" (-5) none]),
        output := ["# Expense added successfully (ID: " ++
          toString (generateId ([] : List Expense)) ++ ")"],
        error := none } := by
  have h := add_negative_amount_persisted [] "2024-08-01" "x" (-5) none
    (by intro e he; cases he) (by intro e he; cases he)
    (by decide) (by decide) (by norm_num)
  exact ⟨h.1, h.2.1, by simpa using h.2.2⟩

/-- C4: when a month filter is given to summary, the month branch refilters
the full unfiltered store by month only, so the whole output is independent
of any category filter, and the reported month total is the sum of the
amounts of all records of that month. -/
theorem summary_month_ignores_category (es : List Expense)
    (bs : List (Int × ℚ)) (cat : Option String) (m : Int) (bc : Bool)
    (hm : m ≠ 0) :
    summaryAction es bs cat (some m) bc = summaryAction es bs none (some m) bc
    ∧ (summaryAction es bs cat (some m) bc).head? =
      some ("# Total expenses for " ++ monthName m ++ ": $" ++
        numToString (sumAmounts (monthFiltered m es))) := by
  have hmain : summaryMain es bs cat (some m) = summaryMain es bs none (some m) := by
    simp [summaryMain, hm]
  constructor
  · unfold summaryAction
    rw [hmain]
  · unfold summaryAction summaryMain
    simp [hm]

/-- C4 witness: with both a category filter and a month filter, the month
total counts an expense of a different category. -/
theorem summary_month_ignores_category_witness :
    summaryAction [⟨1, "2024-08-01", "a", 600, some "Transportation"⟩] []
        (some "Food") (some 8) false
      = summaryAction [⟨1, "2024-08-01", "a", 600, some "Transportation"⟩] []
        none (some 8) false
    ∧ (summaryAction [⟨1, "2024-08-01", "a", 600, some "Transportation"⟩] []
        (some "Food") (some 8) false).head? =
      some ("# Total expenses for " ++ monthName 8 ++ ": $" ++
        numToString (sumAmounts (monthFiltered 8
          [⟨1, "2024-08-01", "a", 600, some "Transportation"⟩]))) :=
  summary_month_ignores_category [⟨1, "2024-08-01", "a", 600, some "Transportation"⟩]
    [] (some "Food") 8 false (by decide)

end ExpenseTracker

namespace ExpenseTracker

/-- C8: the exported CSV is the header row followed by exactly one row per
expense in store order; each row quotes the description verbatim (no escaping
of embedded quotes or commas) and defaults an absent category to Other. -/
theorem exportCsv_structure (es : List Expense) :
    exportCsv es =
      "ID,Date,Category,Description,Amount\n" ++ String.join (es.map csvRow)
    ∧ (es.map csvRow).length = es.length
    ∧ ∀ e : Expense, csvRow e =
        toString e.id ++ "," ++ e.date ++ "," ++
        (match e.category with
         | some c => if c = "" then "Other" else c
         | none => "Other") ++
        ",\"" ++ e.description ++ "\"," ++ numToString e.amount ++ "\n" := by
  refine ⟨rfl, es.length_map csvRow, ?_⟩
  intro e
  unfold csvRow jsOr
  cases e.category <;> rfl

/-- C5 counterexample: a store with one August expense of amount 600 makes
summary print the per-month total line with the raw rendering 600, not the
two-decimal rendering 600.00 the claim requires for that line. -/
theorem summary_month_total_raw_counterexample :
    summaryAction [⟨1, "2024-08-01", "a", 600, some "Food"⟩] [] none (some 8) false
      = ["# Total expenses for August: $600"]
    ∧ numToString 600 = "600"
    ∧ toFixed2 600 = "600.00"
    ∧ ("# Total expenses for August: $600" : String)
      ≠ "# Total expenses for August: $600.00" := by
  refine ⟨by with_unfolding_all rfl, by with_unfolding_all rfl,
    by with_unfolding_all rfl, by decide⟩

/-- C5 (amended): the overall-total line AND the per-month total line both
print the raw numeric sum with no fixed decimal formatting, while the
per-category breakdown lines and the budget comparison amounts are formatted
to exactly 2 decimal digits. -/
theorem summary_formatting_amended (es : List Expense) (bs : List (Int × ℚ))
    (cat : Option String) (m : Int) (b total : ℚ) (hm : m ≠ 0) :
    summaryAction es bs cat none false =
      ["# Total expenses: $" ++ numToString (sumAmounts (categoryFiltered cat es))]
    ∧ (summaryAction es bs cat (some m) false).head? =
      some ("# Total expenses for " ++ monthName m ++ ": $" ++
        numToString (sumAmounts (monthFiltered m es)))
    ∧ summaryAction es bs cat none true =
      ("# Total expenses: $" ++ numToString (sumAmounts (categoryFiltered cat es))) ::
      "\n# Expenses by category:" ::
      (groupByCategory (categoryFiltered cat es)).map
        (fun p => "# " ++ padEnd 12 p.1 ++ ": $" ++ toFixed2 p.2)
    ∧ (List.lookup m bs = some b → b ≠ 0 →
        budgetLines bs m total =
          [if total ≥ b then
            "# WARNING: You" ++ apos ++ "ve exceeded your " ++ monthName m ++
              " budget of $" ++ numToString b ++ " by $" ++ toFixed2 (total - b)
          else
            "# Remaining budget for " ++ monthName m ++ ": $" ++
              toFixed2 (b - total)]) := by
  refine ⟨?_, ?_, ?_, ?_⟩
  · simp [summaryAction, summaryMain]
  · simp [summaryAction, summaryMain, hm]
  · simp [summaryAction, summaryMain, byCategoryLines]
  · intro h1 h2
    unfold budgetLines
    rw [h1]
    simp only [h2, if_false]
    by_cases hc : total ≥ b <;> simp [hc]

/-- C5 amended witness: overall total printed raw; an over-budget month
formats the excess with two decimals. -/
theorem summary_formatting_amended_witness :
    summaryAction [⟨1, "2024-08-01", "a", 600, some "Food"⟩] [((8 : Int), (500 : ℚ))]
        none none false
      = ["# Total expenses: $600"]
    ∧ budgetLines [((8 : Int), (500 : ℚ))] 8 600 =
      ["# WARNING: You" ++ apos ++ "ve exceeded your August budget of $500 by $100.00"] := by
  have h := summary_formatting_amended [⟨1, "2024-08-01", "a", 600, some "Food"⟩]
    [((8 : Int), (500 : ℚ))] none 8 500 600 (by decide)
  constructor
  · rw [h.1]
    with_unfolding_all rfl
  · rw [h.2.2.2 (by with_unfolding_all rfl) (by norm_num)]
    with_unfolding_all rfl

/-- C7 counterexample: a budget of exactly 0 set for month 8 is falsy for
the handler, so with an August total of 5 (which is at least the budget)
summary prints neither the warning line the claim requires nor a remaining
line: its entire output is the single total line. -/
theorem summary_zero_budget_counterexample :
    List.lookup 8 [((8 : Int), (0 : ℚ))] = some 0
    ∧ sumAmounts (monthFiltered 8 [⟨1, "2024-08-01", "a", 5, some "Food"⟩]) ≥ 0
    ∧ summaryAction [⟨1, "2024-08-01", "a", 5, some "Food"⟩] [((8 : Int), (0 : ℚ))]
        none (some 8) false
      = ["# Total expenses for August: $5"]
    ∧ toFixed2 (5 - 0) = "5.00"
    ∧ ("# Total expenses for August: $5" : String)
      ≠ "# WARNING: You" ++ apos ++ "ve exceeded your August budget of $0 by $5.00"
    ∧ ("# Total expenses for August: $5" : String)
      ≠ "# Remaining budget for August: $-5.00" := by
  refine ⟨by with_unfolding_all rfl, by with_unfolding_all rfl,
    by with_unfolding_all rfl, by with_unfolding_all rfl,
    by with_unfolding_all decide, by decide⟩

/-- C7 (amended): for every store with a NONZERO budget set for month m,
summary with month m appends to the total line a warning of exceeding the
budget by (total - budget) to 2 decimals when the month total is at least
the budget, and otherwise the remaining budget (budget - total) to
2 decimals. -/
theorem summary_budget_comparison (es : List Expense) (bs : List (Int × ℚ))
    (m : Int) (b : ℚ) (hm : m ≠ 0) (hb : List.lookup m bs = some b)
    (hb0 : b ≠ 0) :
    summaryAction es bs none (some m) false =
      ["# Total expenses for " ++ monthName m ++ ": $" ++
        numToString (sumAmounts (monthFiltered m es)),
       if sumAmounts (monthFiltered m es) ≥ b then
         "# WARNING: You" ++ apos ++ "ve exceeded your " ++ monthName m ++
           " budget of $" ++ numToString b ++ " by $" ++
           toFixed2 (sumAmounts (monthFiltered m es) - b)
       else
         "# Remaining budget for " ++ monthName m ++ ": $" ++
           toFixed2 (b - sumAmounts (monthFiltered m es))] := by
  have hbl : budgetLines bs m (sumAmounts (monthFiltered m es)) =
      [if sumAmounts (monthFiltered m es) ≥ b then
        "# WARNING: You" ++ apos ++ "ve exceeded your " ++ monthName m ++
          " budget of $" ++ numToString b ++ " by $" ++
          toFixed2 (sumAmounts (monthFiltered m es) - b)
      else
        "# Remaining budget for " ++ monthName m ++ ": $" ++
          toFixed2 (b - sumAmounts (monthFiltered m es))] := by
    unfold budgetLines
    rw [hb]
    simp only [if_neg hb0]
    by_cases hc : sumAmounts (monthFiltered m es) ≥ b
    · rw [if_pos hc, if_pos hc]
    · rw [if_neg hc, if_neg hc]
  simp [summaryAction, summaryMain, hm, hbl]

/-- C7 amended witness: the specification scenario, budget 500 for month 8
and three August expenses totaling 600, reports total 600 and a warning of
exceeding the budget by 100.00. -/
theorem summary_budget_comparison_witness :
    summaryAction
      [⟨1, "2024-08-01", "Lunch", 200, none⟩, ⟨2, "2024-08-02", "Taxi", 200, none⟩,
       ⟨3, "2024-08-03", "Book", 200, none⟩] [((8 : Int), (500 : ℚ))]
      none (some 8) false =
      ["# Total expenses for August: $600",
       "# WARNING: You" ++ apos ++
         "ve exceeded your August budget of $500 by $100.00"] := by
  have h := summary_budget_comparison
    [⟨1, "2024-08-01", "Lunch", 200, none⟩, ⟨2, "2024-08-02", "Taxi", 200, none⟩,
     ⟨3, "2024-08-03", "Book", 200, none⟩] [((8 : Int), (500 : ℚ))] 8 500
    (by decide) (by with_unfolding_all rfl) (by norm_num)
  rw [h]
  with_unfolding_all rfl

end ExpenseTracker
